import Mathlib

/-
Verification of the volatile/cors CORS middleware.

The repository carries several revisions of the same package. The request
evaluator modelled here is `setCORS` from the pointer-options revision
(`OriginsMap = map[string]*Options`), which is the revision the behavioural
claims cite. The policy compiler modelled here is `formatCORS` from the
formatted-options revision, which precomputes joined header strings and
rejects a wildcard entry that allows credentials.

Headers are modelled as association lists with Go `net/http.Header`
semantics for the two operations the package uses: `Get` (first value for
the key, or the empty string when absent) and `Set` (replace all values
for the key). Go `time.Duration` is modelled as an `Int` count of
nanoseconds.
-/

namespace Cors

/-- A header collection: association list from header name to value. -/
abbrev Headers := List (String × String)

/-- Go `Header.Get`: the value stored for the key, or `none` when absent. -/
def headerGetOpt : Headers → String → Option String
  | [], _ => none
  | p :: t, k => if p.1 = k then some p.2 else headerGetOpt t k

/-- Go `Header.Get` as the package observes it: the stored value, or the
empty string when the header is absent. -/
def headerGet (h : Headers) (k : String) : String :=
  (headerGetOpt h k).getD ""

/-- Remove every entry stored under the key. -/
def headerDel : Headers → String → Headers
  | [], _ => []
  | p :: t, k => if p.1 = k then headerDel t k else p :: headerDel t k

/-- Go `Header.Set`: replace whatever is stored under the key by the single
value `v`. -/
def headerSet (h : Headers) (k v : String) : Headers :=
  (k, v) :: headerDel h k

theorem headerGetOpt_del_other (h : Headers) (k q : String) (hne : q ≠ k) :
    headerGetOpt (headerDel h k) q = headerGetOpt h q := by
  induction h with
  | nil => rfl
  | cons p t ih =>
    have hkq : ¬ k = q := fun e => hne e.symm
    by_cases hp : p.1 = k
    · simp [headerDel, headerGetOpt, hp, hkq, ih]
    · by_cases hpq : p.1 = q
      · simp [headerDel, headerGetOpt, hp, hpq, hne]
      · simp [headerDel, headerGetOpt, hp, hpq, ih]

/-- Reading back after `Set`: the set key returns the new value, any other
key is untouched. -/
theorem headerGetOpt_set (h : Headers) (k q v : String) :
    headerGetOpt (headerSet h k v) q = if k = q then some v else headerGetOpt h q := by
  by_cases hk : k = q
  · simp [headerSet, headerGetOpt, hk]
  · simp [headerSet, headerGetOpt, hk, headerGetOpt_del_other h k q (fun e => hk e.symm)]

/-- Access control options for one origin, from the source `Options` struct.
`MaxAge` is a Go `time.Duration`, i.e. a signed count of nanoseconds. -/
structure Options where
  AllowedHeaders : List String := []
  AllowedMethods : List String := []
  CredentialsAllowed : Bool := false
  ExposedHeaders : List String := []
  MaxAge : Int := 0
deriving DecidableEq, Repr

/-- The wildcard origin key. -/
def AllOrigins : String := "*"

/-- `OriginsMap = map[string]*Options`: a `none` value models a nil
`*Options` entry. Go map keys are unique, and lookup reads the first match. -/
abbrev OriginsMap := List (String × Option Options)

/-- Go map lookup on an `OriginsMap`: `some v` with the comma-ok boolean
true, `none` when the key is absent. -/
def mapGet : OriginsMap → String → Option (Option Options)
  | [], _ => none
  | p :: t, k => if p.1 = k then some p.2 else mapGet t k

/-- The normalisation at the top of `setCORS`: a nil or empty origins map
becomes the single wildcard entry with a nil `*Options`. -/
def normalizeOrigins (origins : Option OriginsMap) : OriginsMap :=
  match origins with
  | none => [(AllOrigins, none)]
  | some m => if m.isEmpty then [(AllOrigins, none)] else m

/-- The `(opts, knownOrigin, allOriginsAllowed)` triple `setCORS` computes:
exact lookup of the request origin first, then the wildcard entry. -/
def resolveOrigin (m : OriginsMap) (origin : String) :
    Option Options × Bool × Bool :=
  match mapGet m origin with
  | some opts => (opts, true, false)
  | none =>
    match mapGet m AllOrigins with
    | some opts => (opts, false, true)
    | none => (none, false, false)

/-- The per-request control signal: `Continue` models calling `handler()`,
`StopOK` models `WriteHeader(200)` ending a preflight, `Reject` models
`http.Error`. -/
inductive Decision where
  | Continue
  | StopOK
  | Reject (status : Nat) (msg : String)
deriving DecidableEq, Repr

/-- The parts of an HTTP request the package reads. -/
structure Request where
  method : String
  header : Headers
deriving DecidableEq, Repr

/-- `strings.Join(xs, ", ")`. -/
def joinComma (xs : List String) : String :=
  String.intercalate ", " xs

/-- Round-half-to-even division, the rounding `fmt` uses for `%.f`. -/
def roundHalfEvenDiv (n d : Nat) : Nat :=
  let q := n / d
  let r := n % d
  if 2 * r < d then q
  else if 2 * r > d then q + 1
  else if q % 2 = 0 then q else q + 1

/-- `fmt.Sprintf("%.f", d.Seconds())` for a duration of `ns` nanoseconds:
the seconds value rounded half-to-even, with a sign for negative input
(including Go printing `-0` for small negative durations). -/
def goFormatSeconds (ns : Int) : String :=
  let mag := roundHalfEvenDiv ns.natAbs 1000000000
  if ns < 0 then "-" ++ toString mag else toString mag

/-- The header-writing tail of `setCORS`, entered once an origin rule has
been resolved (exactly or through the wildcard entry). `opts = none` models
a nil `*Options`. The allow-methods branch tests `len(opts.AllowedHeaders)`,
exactly as the source does. -/
def applyCORS (req : Request) (origin : String) (opts : Option Options)
    (h0 : Headers) : Headers × Decision :=
  let h := headerSet h0 "Access-Control-Allow-Origin" origin
  let h := headerSet h "Vary" "Origin"
  let h := match opts with
    | some o =>
      if o.CredentialsAllowed then
        headerSet h "Access-Control-Allow-Credentials" "true"
      else h
    | none => h
  let h := match opts with
    | some o =>
      if 0 < o.ExposedHeaders.length then
        headerSet h "Access-Control-Expose-Headers" (joinComma o.ExposedHeaders)
      else h
    | none => h
  let h := match opts with
    | some o =>
      if o.MaxAge ≠ 0 then
        headerSet h "Access-Control-Max-Age" (goFormatSeconds o.MaxAge)
      else h
    | none => h
  if req.method ≠ "OPTIONS" then (h, Decision.Continue)
  else
    let h := match opts with
      | some o =>
        if 0 < o.AllowedHeaders.length then
          headerSet h "Access-Control-Allow-Headers" (joinComma o.AllowedHeaders)
        else
          headerSet h "Access-Control-Allow-Headers"
            (headerGet req.header "Access-Control-Request-Headers")
      | none =>
        headerSet h "Access-Control-Allow-Headers"
          (headerGet req.header "Access-Control-Request-Headers")
    let h := match opts with
      | some o =>
        if 0 < o.AllowedHeaders.length then
          headerSet h "Access-Control-Allow-Methods" (joinComma o.AllowedMethods)
        else
          headerSet h "Access-Control-Allow-Methods"
            (headerGet req.header "Access-Control-Request-Method")
      | none =>
        headerSet h "Access-Control-Allow-Methods"
          (headerGet req.header "Access-Control-Request-Method")
    (h, Decision.StopOK)

/-- `setCORS` from the pointer-options revision: resolve the request origin
against the origins map and write the CORS response headers into `h0`,
returning the final header collection and the control decision. -/
def setCORS (req : Request) (origins : Option OriginsMap) (h0 : Headers) :
    Headers × Decision :=
  let origin := headerGet req.header "Origin"
  if origin = "" then (h0, Decision.Continue)
  else
    let m := normalizeOrigins origins
    match resolveOrigin m origin with
    | (opts, knownOrigin, allOriginsAllowed) =>
      if !knownOrigin && !allOriginsAllowed then
        (h0, Decision.Reject 403 "Forbidden CORS request")
      else applyCORS req origin opts h0

/-- The compiled per-origin options of the formatted-options revision:
each field caches the precomputed header-value string, `none` meaning the
corresponding option was unset. -/
structure formattedOptions where
  AllowedHeaders : Option String := none
  AllowedMethods : Option String := none
  CredentialsAllowed : Option String := none
  ExposedHeaders : Option String := none
  MaxAge : Option String := none
deriving DecidableEq, Repr

/-- The Go runtime panic message raised by an assignment through a nil
pointer. -/
def nilDerefMsg : String :=
  "runtime error: invalid memory address or nil pointer dereference"

/-- The panic message `formatCORS` raises for a wildcard entry that allows
credentials. -/
def wildcardCredsMsg : String :=
  "sending credentials via CORS is not permitted for wildcarded origins"

/-- Go map lookup on the raw options map of the formatted-options revision. -/
def mapGetRaw : List (String × Options) → String → Option Options
  | [], _ => none
  | p :: t, k => if p.1 = k then some p.2 else mapGetRaw t k

/-- One iteration of the `formatCORS` loop. Every branch of the source
assigns through a nil `*string` field of the zero-value `formattedOptions`
(`*result.AllowedHeaders = ...` and so on), so any option that is actually
set panics at runtime; the panic is modelled as an error. The `MaxAge`
guard is `item.MaxAge.Seconds() > 0.5`, i.e. more than 500000000ns. -/
def formatEntry (item : Options) : Except String formattedOptions :=
  if 0 < item.AllowedHeaders.length then Except.error nilDerefMsg
  else if 0 < item.AllowedMethods.length then Except.error nilDerefMsg
  else if item.CredentialsAllowed then Except.error nilDerefMsg
  else if 0 < item.ExposedHeaders.length then Except.error nilDerefMsg
  else if 500000000 < item.MaxAge then Except.error nilDerefMsg
  else Except.ok {}

/-- The `formatCORS` loop over all entries of the raw map. -/
def formatLoop : List (String × Options) →
    Except String (List (String × formattedOptions))
  | [] => Except.ok []
  | (origin, item) :: rest =>
    match formatEntry item with
    | Except.error e => Except.error e
    | Except.ok r =>
      match formatLoop rest with
      | Except.error e => Except.error e
      | Except.ok rs => Except.ok ((origin, r) :: rs)

/-- `formatCORS` from the formatted-options revision: panics (modelled as
an error) when the wildcard entry allows credentials, before compiling any
entry; otherwise compiles every entry in turn. -/
def formatCORS (opt : List (String × Options)) :
    Except String (List (String × formattedOptions)) :=
  match mapGetRaw opt "*" with
  | some wild =>
    if wild.CredentialsAllowed then Except.error wildcardCredsMsg
    else formatLoop opt
  | none => formatLoop opt

/-- The max-age of a resolved rule; a nil `*Options` entry behaves as the
zero-value rule, whose max-age is zero. -/
def resolvedMaxAge : Option Options → Int
  | none => 0
  | some oo => oo.MaxAge

/-- Whether a resolved rule leaves both preflight lists unset; a nil
`*Options` entry leaves everything unset. -/
def listsUnset : Option Options → Bool
  | none => true
  | some oo => oo.AllowedHeaders.isEmpty && oo.AllowedMethods.isEmpty

/-- When the origin lookup succeeds (exactly or through the wildcard
entry), `setCORS` is the header-writing tail applied to the resolved rule. -/
theorem setCORS_resolved (req : Request) (origins : Option OriginsMap)
    (h0 : Headers) (o : String) (opts : Option Options) (k a : Bool)
    (ho : headerGet req.header "Origin" = o) (hne : o ≠ "")
    (hres : resolveOrigin (normalizeOrigins origins) o = (opts, k, a))
    (hok : k = true ∨ a = true) :
    setCORS req origins h0 = applyCORS req o opts h0 := by
  unfold setCORS
  rw [ho]
  rw [if_neg hne]
  show (match resolveOrigin (normalizeOrigins origins) o with
    | (opts, knownOrigin, allOriginsAllowed) =>
      if (!knownOrigin && !allOriginsAllowed) = true then
        (h0, Decision.Reject 403 "Forbidden CORS request")
      else applyCORS req o opts h0) = applyCORS req o opts h0
  rw [hres]
  rcases hok with hk | ha
  · subst hk; simp
  · subst ha; simp

/-- When the origin lookup yields a rule, the comma-ok flags record which
lookup succeeded. -/
theorem resolveOrigin_flags (m : OriginsMap) (o : String) (rule : Options)
    (h : (resolveOrigin m o).1 = some rule) :
    resolveOrigin m o = (some rule, true, false)
    ∨ resolveOrigin m o = (some rule, false, true) := by
  unfold resolveOrigin at h ⊢
  cases hx : mapGet m o with
  | some v => simp_all
  | none =>
    cases hw : mapGet m AllOrigins with
    | some w => simp_all
    | none => simp_all

/-- `applyCORS` always emits `Access-Control-Allow-Origin` with the literal
request origin. -/
theorem applyCORS_allow_origin (req : Request) (o : String)
    (opts : Option Options) (h0 : Headers) :
    headerGetOpt (applyCORS req o opts h0).1 "Access-Control-Allow-Origin"
      = some o := by
  unfold applyCORS
  cases opts with
  | none =>
    by_cases hm : req.method = "OPTIONS" <;> simp +decide [hm, headerGetOpt_set]
  | some oo =>
    by_cases hm : req.method = "OPTIONS" <;>
      simp +decide [hm, headerGetOpt_set] <;>
      split_ifs <;> simp +decide [headerGetOpt_set]

/-- `applyCORS` always emits `Vary: Origin`. -/
theorem applyCORS_vary (req : Request) (o : String)
    (opts : Option Options) (h0 : Headers) :
    headerGetOpt (applyCORS req o opts h0).1 "Vary" = some "Origin" := by
  unfold applyCORS
  cases opts with
  | none =>
    by_cases hm : req.method = "OPTIONS" <;> simp +decide [hm, headerGetOpt_set]
  | some oo =>
    by_cases hm : req.method = "OPTIONS" <;>
      simp +decide [hm, headerGetOpt_set] <;>
      split_ifs <;> simp +decide [headerGetOpt_set]

/-- The control decision of `applyCORS`: stop after a preflight reply,
continue downstream otherwise. -/
theorem applyCORS_decision (req : Request) (o : String)
    (opts : Option Options) (h0 : Headers) :
    (applyCORS req o opts h0).2
      = if req.method = "OPTIONS" then Decision.StopOK else Decision.Continue := by
  unfold applyCORS
  cases opts with
  | none =>
    by_cases hm : req.method = "OPTIONS" <;> simp [hm]
  | some oo =>
    by_cases hm : req.method = "OPTIONS" <;> simp [hm]

/-- `applyCORS` emits `Access-Control-Max-Age` exactly when the resolved
rule's max-age is non-zero, carrying the formatted whole-seconds string. -/
theorem applyCORS_max_age (req : Request) (o : String)
    (opts : Option Options) (h0 : Headers)
    (hfresh : headerGetOpt h0 "Access-Control-Max-Age" = none) :
    headerGetOpt (applyCORS req o opts h0).1 "Access-Control-Max-Age"
      = if resolvedMaxAge opts = 0 then none
        else some (goFormatSeconds (resolvedMaxAge opts)) := by
  unfold applyCORS resolvedMaxAge
  cases opts with
  | none =>
    by_cases hm : req.method = "OPTIONS" <;>
      simp +decide [hm, headerGetOpt_set, hfresh]
  | some oo =>
    by_cases hm : req.method = "OPTIONS" <;>
      simp +decide [hm, headerGetOpt_set, hfresh] <;>
      split_ifs <;> simp_all +decide [headerGetOpt_set, hfresh]

/-- Claim C5, as stated, is false at a concrete input: the rejection
message emitted by the code is "Forbidden CORS request" (capital F), not
the claimed fixed message "forbidden CORS request". -/
theorem C5_counterexample :
    (setCORS { method := "GET", header := [("Origin", "other.com")] }
        (some [("example.com", (none : Option Options))]) []).2
      = Decision.Reject 403 "Forbidden CORS request"
    ∧ Decision.Reject 403 "Forbidden CORS request"
      ≠ Decision.Reject 403 "forbidden CORS request" := by decide

/-- Claim C5 (amended): for every request whose Origin value is neither a
configured key nor covered by a wildcard entry, the decision is Reject with
status 403 and the fixed message "Forbidden CORS request", and the response
header collection is left unchanged. -/
theorem C5_reject_unknown_origin (req : Request) (origins : Option OriginsMap)
    (h0 : Headers) (o : String)
    (ho : headerGet req.header "Origin" = o) (hne : o ≠ "")
    (h1 : mapGet (normalizeOrigins origins) o = none)
    (h2 : mapGet (normalizeOrigins origins) AllOrigins = none) :
    setCORS req origins h0 = (h0, Decision.Reject 403 "Forbidden CORS request") := by
  unfold setCORS
  rw [ho]
  rw [if_neg hne]
  have hres : resolveOrigin (normalizeOrigins origins) o = (none, false, false) := by
    unfold resolveOrigin
    rw [h1, h2]
  show (match resolveOrigin (normalizeOrigins origins) o with
    | (opts, knownOrigin, allOriginsAllowed) =>
      if (!knownOrigin && !allOriginsAllowed) = true then
        (h0, Decision.Reject 403 "Forbidden CORS request")
      else applyCORS req o opts h0)
    = (h0, Decision.Reject 403 "Forbidden CORS request")
  rw [hres]
  rfl

/-- Witness for the amended claim C5 at a concrete input. -/
theorem C5_reject_unknown_origin_witness :
    setCORS { method := "GET", header := [("Origin", "other.com")] }
      (some [("example.com", (none : Option Options))]) []
    = ([], Decision.Reject 403 "Forbidden CORS request") :=
  C5_reject_unknown_origin _ _ _ "other.com" (by decide) (by decide)
    (by decide) (by decide)

/-- Claim C7: whenever the request Origin equals a configured key exactly,
that key's rule is the one the evaluator applies, even when a wildcard
entry is also present. -/
theorem C7_exact_match_precedence (req : Request) (origins : Option OriginsMap)
    (h0 : Headers) (o : String) (rule : Option Options)
    (ho : headerGet req.header "Origin" = o) (hne : o ≠ "")
    (hl : mapGet (normalizeOrigins origins) o = some rule) :
    setCORS req origins h0 = applyCORS req o rule h0 := by
  have hres : resolveOrigin (normalizeOrigins origins) o = (rule, true, false) := by
    unfold resolveOrigin
    rw [hl]
  exact setCORS_resolved req origins h0 o rule true false ho hne hres (Or.inl rfl)

/-- Witness for claim C7: a policy with both an exact key and a wildcard
entry applies the exact key's rule. -/
theorem C7_exact_match_precedence_witness :
    setCORS { method := "GET", header := [("Origin", "example.com")] }
      (some [("example.com", some { AllowedMethods := ["GET"] }),
             ("*", (none : Option Options))]) []
    = applyCORS { method := "GET", header := [("Origin", "example.com")] }
        "example.com" (some { AllowedMethods := ["GET"] }) [] :=
  C7_exact_match_precedence _ _ _ "example.com" (some { AllowedMethods := ["GET"] })
    (by decide) (by decide) (by decide)

/-- Claim C8: a request without an Origin header leaves the response header
collection unchanged and the decision is Continue. -/
theorem C8_no_origin_no_headers (req : Request) (origins : Option OriginsMap)
    (h0 : Headers) (ho : headerGet req.header "Origin" = "") :
    setCORS req origins h0 = (h0, Decision.Continue) := by
  unfold setCORS
  rw [ho]
  simp

/-- Witness for claim C8 at a concrete input with pre-existing response
headers. -/
theorem C8_no_origin_no_headers_witness :
    setCORS { method := "GET", header := [("Accept", "text/html")] }
      (some [("example.com", (none : Option Options))]) [("X-Init", "v")]
    = ([("X-Init", "v")], Decision.Continue) :=
  C8_no_origin_no_headers _ _ _ (by decide)

/-- Claim C1, as stated, is false at a concrete input: a request whose
Origin header is the literal "*" resolves to the wildcard rule that allows
credentials (this revision never rejects that policy), and the emitted
`Access-Control-Allow-Origin` is then the literal "*". -/
theorem C1_counterexample :
    (resolveOrigin (normalizeOrigins
        (some [("*", some { CredentialsAllowed := true })])) "*").1
      = some { CredentialsAllowed := true }
    ∧ headerGetOpt (setCORS { method := "GET", header := [("Origin", "*")] }
        (some [("*", some { CredentialsAllowed := true })]) []).1
        "Access-Control-Allow-Origin" = some "*" := by decide

/-- Claim C1 (amended): whenever the request origin resolves (exactly or
via the wildcard entry) to a rule that allows credentials, the emitted
`Access-Control-Allow-Origin` equals the request's Origin value verbatim;
in particular it is the literal "*" only when the Origin header itself is
"*". -/
theorem C1_allow_origin_echoes_origin (req : Request)
    (origins : Option OriginsMap) (h0 : Headers) (o : String) (rule : Options)
    (ho : headerGet req.header "Origin" = o) (hne : o ≠ "")
    (hres : (resolveOrigin (normalizeOrigins origins) o).1 = some rule)
    (hcred : rule.CredentialsAllowed = true) :
    headerGetOpt (setCORS req origins h0).1 "Access-Control-Allow-Origin" = some o
    ∧ (o ≠ "*" →
       headerGetOpt (setCORS req origins h0).1 "Access-Control-Allow-Origin"
         ≠ some "*") := by
  have hflags := resolveOrigin_flags (normalizeOrigins origins) o rule hres
  have happ : setCORS req origins h0 = applyCORS req o (some rule) h0 := by
    rcases hflags with hf | hf
    · exact setCORS_resolved req origins h0 o (some rule) true false ho hne hf
        (Or.inl rfl)
    · exact setCORS_resolved req origins h0 o (some rule) false true ho hne hf
        (Or.inr rfl)
  rw [happ, applyCORS_allow_origin]
  exact ⟨rfl, fun hstar he => hstar (Option.some.inj he)⟩

/-- Witness for the amended claim C1 at a concrete input. -/
theorem C1_allow_origin_echoes_origin_witness :
    headerGetOpt (setCORS { method := "GET", header := [("Origin", "example.com")] }
        (some [("example.com", some { CredentialsAllowed := true })]) []).1
        "Access-Control-Allow-Origin" = some "example.com"
    ∧ ("example.com" ≠ "*" →
       headerGetOpt (setCORS { method := "GET", header := [("Origin", "example.com")] }
          (some [("example.com", some { CredentialsAllowed := true })]) []).1
          "Access-Control-Allow-Origin" ≠ some "*") :=
  C1_allow_origin_echoes_origin _ _ _ "example.com" { CredentialsAllowed := true }
    (by decide) (by decide) (by decide) (by decide)

/-- Claim C3, as stated, is false at its own scenario input: under the
wildcard-only policy with no options, a GET request from "http://a.com"
gets `Access-Control-Allow-Origin` set to the request origin (not "*") and
a `Vary` header (not omitted). -/
theorem C3_counterexample :
    headerGetOpt (setCORS { method := "GET", header := [("Origin", "http://a.com")] }
        (some [("*", (none : Option Options))]) []).1
        "Access-Control-Allow-Origin" ≠ some "*"
    ∧ headerGetOpt (setCORS { method := "GET", header := [("Origin", "http://a.com")] }
        (some [("*", (none : Option Options))]) []).1 "Vary" ≠ none := by decide

/-- Claim C3 (amended): under a policy holding only the wildcard entry with
no options, a request with an Origin header and a non-OPTIONS method gets
`Access-Control-Allow-Origin` set to the request's Origin value,
`Vary: Origin` set, and the decision Continue. -/
theorem C3_wildcard_only (req : Request) (h0 : Headers) (o : String)
    (ho : headerGet req.header "Origin" = o) (hne : o ≠ "")
    (hm : req.method ≠ "OPTIONS") :
    headerGetOpt (setCORS req (some [(AllOrigins, none)]) h0).1
      "Access-Control-Allow-Origin" = some o
    ∧ headerGetOpt (setCORS req (some [(AllOrigins, none)]) h0).1 "Vary"
        = some "Origin"
    ∧ (setCORS req (some [(AllOrigins, none)]) h0).2 = Decision.Continue := by
  have happ : setCORS req (some [(AllOrigins, none)]) h0 = applyCORS req o none h0 := by
    by_cases hstar : o = "*"
    · apply setCORS_resolved req _ h0 o none true false ho hne ?_ (Or.inl rfl)
      unfold resolveOrigin normalizeOrigins
      simp [mapGet, AllOrigins, hstar]
    · apply setCORS_resolved req _ h0 o none false true ho hne ?_ (Or.inr rfl)
      have hso : ¬ "*" = o := fun e => hstar e.symm
      unfold resolveOrigin normalizeOrigins
      simp [mapGet, AllOrigins, hso]
  refine ⟨?_, ?_, ?_⟩
  · rw [happ]
    exact applyCORS_allow_origin req o none h0
  · rw [happ]
    exact applyCORS_vary req o none h0
  · rw [happ, applyCORS_decision]
    exact if_neg hm

/-- Witness for the amended claim C3 at the scenario input. -/
theorem C3_wildcard_only_witness :
    headerGetOpt (setCORS { method := "GET", header := [("Origin", "http://a.com")] }
        (some [(AllOrigins, none)]) []).1 "Access-Control-Allow-Origin"
      = some "http://a.com"
    ∧ headerGetOpt (setCORS { method := "GET", header := [("Origin", "http://a.com")] }
        (some [(AllOrigins, none)]) []).1 "Vary" = some "Origin"
    ∧ (setCORS { method := "GET", header := [("Origin", "http://a.com")] }
        (some [(AllOrigins, none)]) []).2 = Decision.Continue :=
  C3_wildcard_only _ _ "http://a.com" (by decide) (by decide) (by decide)

/-- Claim C9: for a request whose origin resolves to a rule, the
`Access-Control-Max-Age` header is set, to the rule's duration formatted
as a whole-seconds integer string, exactly when the rule's max-age is
non-zero (a nil rule has zero max-age); a zero max-age leaves the header
unset. -/
theorem C9_max_age_iff (req : Request) (origins : Option OriginsMap)
    (h0 : Headers) (o : String) (opts : Option Options)
    (ho : headerGet req.header "Origin" = o) (hne : o ≠ "")
    (hres : resolveOrigin (normalizeOrigins origins) o = (opts, true, false)
            ∨ resolveOrigin (normalizeOrigins origins) o = (opts, false, true))
    (hfresh : headerGetOpt h0 "Access-Control-Max-Age" = none) :
    headerGetOpt (setCORS req origins h0).1 "Access-Control-Max-Age"
      = if resolvedMaxAge opts = 0 then none
        else some (goFormatSeconds (resolvedMaxAge opts)) := by
  have happ : setCORS req origins h0 = applyCORS req o opts h0 := by
    rcases hres with hf | hf
    · exact setCORS_resolved req origins h0 o opts true false ho hne hf (Or.inl rfl)
    · exact setCORS_resolved req origins h0 o opts false true ho hne hf (Or.inr rfl)
  rw [happ]
  exact applyCORS_max_age req o opts h0 hfresh

/-- Witness for claim C9: a rule with a 90-second max-age yields the header
value "90". -/
theorem C9_max_age_iff_witness :
    headerGetOpt (setCORS { method := "GET", header := [("Origin", "example.com")] }
        (some [("example.com", some { MaxAge := 90000000000 })]) []).1
        "Access-Control-Max-Age"
      = if resolvedMaxAge (some { MaxAge := 90000000000 }) = 0 then none
        else some (goFormatSeconds (resolvedMaxAge (some { MaxAge := 90000000000 }))) :=
  C9_max_age_iff _ _ _ "example.com" (some { MaxAge := 90000000000 })
    (by decide) (by decide) (Or.inl (by decide)) (by decide)

/-- Claim C10: a preflight request whose origin resolves always gets both
`Access-Control-Allow-Headers` and `Access-Control-Allow-Methods` in the
response; when the rule leaves both lists unset and the request carries no
`Access-Control-Request-Headers` or `Access-Control-Request-Method`
header, both response headers are written with empty string values. -/
theorem C10_preflight_headers_always_written (req : Request)
    (origins : Option OriginsMap) (h0 : Headers) (o : String)
    (opts : Option Options)
    (ho : headerGet req.header "Origin" = o) (hne : o ≠ "")
    (hm : req.method = "OPTIONS")
    (hres : resolveOrigin (normalizeOrigins origins) o = (opts, true, false)
            ∨ resolveOrigin (normalizeOrigins origins) o = (opts, false, true)) :
    (headerGetOpt (setCORS req origins h0).1
        "Access-Control-Allow-Headers").isSome = true
    ∧ (headerGetOpt (setCORS req origins h0).1
        "Access-Control-Allow-Methods").isSome = true
    ∧ (listsUnset opts = true →
       headerGet req.header "Access-Control-Request-Headers" = "" →
       headerGet req.header "Access-Control-Request-Method" = "" →
       headerGetOpt (setCORS req origins h0).1
           "Access-Control-Allow-Headers" = some ""
       ∧ headerGetOpt (setCORS req origins h0).1
           "Access-Control-Allow-Methods" = some "") := by
  have happ : setCORS req origins h0 = applyCORS req o opts h0 := by
    rcases hres with hf | hf
    · exact setCORS_resolved req origins h0 o opts true false ho hne hf (Or.inl rfl)
    · exact setCORS_resolved req origins h0 o opts false true ho hne hf (Or.inr rfl)
  rw [happ]
  cases opts with
  | none =>
    refine ⟨?_, ?_, ?_⟩
    · simp +decide [applyCORS, hm, headerGetOpt_set]
    · simp +decide [applyCORS, hm, headerGetOpt_set]
    · intro hu h1 h2
      simp +decide [applyCORS, hm, h1, h2, headerGetOpt_set]
  | some oo =>
    refine ⟨?_, ?_, ?_⟩
    · by_cases hah : 0 < oo.AllowedHeaders.length <;>
        simp +decide [applyCORS, hm, hah, headerGetOpt_set]
    · by_cases hah : 0 < oo.AllowedHeaders.length <;>
        simp +decide [applyCORS, hm, hah, headerGetOpt_set]
    · intro hu h1 h2
      have hAH : oo.AllowedHeaders = [] := by
        unfold listsUnset at hu
        simp [Bool.and_eq_true, List.isEmpty_iff] at hu
        exact hu.1
      simp +decide [applyCORS, hm, hAH, h1, h2, headerGetOpt_set]

/-- Witness for claim C10: a bare preflight against a nil-options rule gets
both headers, with empty values. -/
theorem C10_preflight_headers_always_written_witness :
    (headerGetOpt (setCORS { method := "OPTIONS", header := [("Origin", "example.com")] }
        (some [("example.com", (none : Option Options))]) []).1
        "Access-Control-Allow-Headers").isSome = true
    ∧ (headerGetOpt (setCORS { method := "OPTIONS", header := [("Origin", "example.com")] }
        (some [("example.com", (none : Option Options))]) []).1
        "Access-Control-Allow-Methods").isSome = true
    ∧ (listsUnset (none : Option Options) = true →
       headerGet ({ method := "OPTIONS", header := [("Origin", "example.com")] } : Request).header
         "Access-Control-Request-Headers" = "" →
       headerGet ({ method := "OPTIONS", header := [("Origin", "example.com")] } : Request).header
         "Access-Control-Request-Method" = "" →
       headerGetOpt (setCORS { method := "OPTIONS", header := [("Origin", "example.com")] }
           (some [("example.com", (none : Option Options))]) []).1
           "Access-Control-Allow-Headers" = some ""
       ∧ headerGetOpt (setCORS { method := "OPTIONS", header := [("Origin", "example.com")] }
           (some [("example.com", (none : Option Options))]) []).1
           "Access-Control-Allow-Methods" = some "") :=
  C10_preflight_headers_always_written _ _ _ "example.com" none
    (by decide) (by decide) (by decide) (Or.inl (by decide))

/-- Claim C2: compiling a policy whose wildcard entry allows credentials
raises the configuration panic, before any entry is compiled and before
any request is evaluated; the combination is never accepted. -/
theorem C2_wildcard_credentials_config_error (opt : List (String × Options))
    (wild : Options) (hw : mapGetRaw opt "*" = some wild)
    (hc : wild.CredentialsAllowed = true) :
    formatCORS opt = Except.error wildcardCredsMsg := by
  unfold formatCORS
  rw [hw]
  simp [hc]

/-- Witness for claim C2 at the scenario input. -/
theorem C2_wildcard_credentials_config_error_witness :
    formatCORS [("*", { CredentialsAllowed := true })]
      = Except.error wildcardCredsMsg :=
  C2_wildcard_credentials_config_error _ { CredentialsAllowed := true }
    (by decide) (by decide)

/-- Claim C4 evaluated at a failing input: the rule for "example.com" has
AllowedMethods = ["GET"] (non-empty) and AllowedHeaders unset, yet the
preflight response echoes the request's Access-Control-Request-Method
("PUT") instead of the joined allowed-methods string, because the source
gates the allow-methods branch on `len(opts.AllowedHeaders)`. -/
theorem C4_code_eval :
    headerGetOpt (setCORS
        { method := "OPTIONS",
          header := [("Origin", "example.com"),
                     ("Access-Control-Request-Method", "PUT")] }
        (some [("example.com", some { AllowedMethods := ["GET"] })]) []).1
        "Access-Control-Allow-Methods" = some "PUT"
    ∧ some "PUT" ≠ some (joinComma ["GET"]) := by decide

/-- Claim C6 evaluated at a failing input: compiling a policy whose entry
has a non-empty allowed-headers list panics with a nil-pointer dereference
(the source assigns the joined string through a nil *string field) instead
of caching the joined string. -/
theorem C6_code_eval :
    formatCORS [("example.com", { AllowedHeaders := ["X-A", "X-B"] })]
      = Except.error nilDerefMsg := rfl

end Cors
